import Mathlib

/-!
Verification of the AMPL test harness (`src/test.py`): a shallow embedding of
the test-execution engine — timeout handling (`process_handler`), memory
checking (`mem_check`), output comparison (`diff`), the per-case stage loop and
suite aggregation (`BaseTest.test`), the codegen two-stage execute, case
discovery and case-range parsing (`test_runner`, `parse_args`) — together with
theorems settling the specified properties.
-/

namespace AmplTest

/-- Termination signals sent by the timeout handler to the whole process group
(the `os.killpg` calls in `process_handler`, src/test.py:90 and :97). -/
inductive Sig where
  | sigterm
  | sigkill
deriving DecidableEq

/-- Behaviour of one spawned child process as observed by `process_handler`:
whether the initial `process.wait(timeout=timeout)` returns before the timeout
(and with which `returncode`), and whether the process dies within the grace
wait that follows SIGTERM, respectively SIGKILL. -/
structure ChildProc where
  exitsNaturally : Bool
  natCode : Int
  diesAfterTerm : Bool
  diesAfterKill : Bool
deriving DecidableEq

/-- Shallow embedding of `process_handler` (src/test.py:70-105).  It returns
the return code of the child on natural exit, `-1` when a timeout was resolved
by signalling the group, and raises (`Except.error`) when the process survives
both SIGTERM and SIGKILL.  The second component logs every signal sent to the
process group together with the duration of the `process.wait` grace interval
that follows it: the source passes the same `timeout` value to each of the
three `process.wait(timeout=timeout)` calls, so every grace wait lasts up to
`timeout` seconds. -/
def process_handler (timeout : Nat) (p : ChildProc) :
    Except String (Int × List (Sig × Nat)) :=
  if p.exitsNaturally then Except.ok (p.natCode, [])
  else if p.diesAfterTerm then Except.ok (-1, [(Sig.sigterm, timeout)])
  else if p.diesAfterKill then
    Except.ok (-1, [(Sig.sigterm, timeout), (Sig.sigkill, timeout)])
  else Except.error "Test executable could not be terminated."

/-- Shallow embedding of `BaseTest.mem_check` (src/test.py:217-251) and of the
identical logic in `RedirectionBaseTest.mem_check` (src/test.py:399-434).
Valgrind is spawned with `--error-exitcode=255`; the method then returns
`False` exactly when `process_handler` reports `-1` (a timeout) and `True` in
every other case — the valgrind exit code itself is never inspected. -/
def mem_check (timeout : Nat) (valgrindProc : ChildProc) : Except String Bool :=
  match process_handler timeout valgrindProc with
  | Except.error e => Except.error e
  | Except.ok (code, _) => if code = -1 then Except.ok false else Except.ok true

/-- Shallow embedding of `CodegenTest.execute` and `CodegenTest.execute_class`
(src/test.py:472-518).  `primaryOk` is the boolean returned by the inherited
`BaseTest.execute` for the primary `amplc` run (`false` exactly when that run
timed out); `classRet` is the `process_handler` result of the secondary `java`
run.  The first component is the boolean the method returns; the second
records whether `execute_class` was invoked.  Note the source: on primary
failure it executes `return True` and never reaches `execute_class`. -/
def codegen_execute (primaryOk : Bool) (execClassFlag : Bool) (classRet : Int) :
    Bool × Bool :=
  if !primaryOk then (true, false)
  else if execClassFlag then (decide (classRet = 0), true)
  else (true, false)

/-- A record of what one call of `BaseTest.diff` (src/test.py:253-292) did:
the latched pass flag, the streams for which a `diff` child process was
actually run, and the streams whose mismatch was logged as a failure. -/
structure DiffLog where
  passed : Bool
  checked : List String
  reported : List String
deriving DecidableEq

/-- The body of the `for output_type in self.DIFF_FILES` loop of
`BaseTest.diff`: run `diff` on the stream, and on a nonzero exit log the
stream as failed and latch `passed := False`; the loop never breaks. -/
def diff_step (diffExit : String → Int) (acc : DiffLog) (ot : String) : DiffLog :=
  if diffExit ot ≠ 0 then
    { passed := false, checked := acc.checked ++ [ot],
      reported := acc.reported ++ [ot] }
  else
    { acc with checked := acc.checked ++ [ot] }

/-- Shallow embedding of `BaseTest.diff` (src/test.py:253-292): fold the loop
body over all of `DIFF_FILES`, starting from `passed = True`.  `diffExit ot`
is the return code of the `diff` child process for stream `ot`. -/
def diff (diffFiles : List String) (diffExit : String → Int) : DiffLog :=
  diffFiles.foldl (diff_step diffExit) { passed := true, checked := [], reported := [] }

theorem diff_foldl_spec (diffExit : String → Int) (fs : List String)
    (acc : DiffLog) :
    fs.foldl (diff_step diffExit) acc =
      { passed := acc.passed && fs.all (fun ot => diffExit ot == 0),
        checked := acc.checked ++ fs,
        reported := acc.reported ++ fs.filter (fun ot => !(diffExit ot == 0)) } := by
  induction fs generalizing acc with
  | nil => simp
  | cons a l ih =>
    by_cases h : diffExit a = 0
    · simp [List.foldl_cons, diff_step, h, ih, List.filter_cons]
    · simp [List.foldl_cons, diff_step, h, ih, List.filter_cons, List.append_assoc]

/-- C1 (code evaluation at the failing input): when valgrind exits with the
distinguished error exit code 255 — i.e. memory errors were detected — and no
timeout occurred, `mem_check` nevertheless returns `True` (check passed): the
code never inspects the distinguished exit code, contradicting the claim and
the `--error-exitcode=255` configuration it passes to valgrind. -/
theorem mem_check_ignores_distinguished_exit_code :
    mem_check 10 { exitsNaturally := true, natCode := 255,
                   diesAfterTerm := true, diesAfterKill := true } =
      Except.ok true := rfl

/-- C3 (counterexample): with the configured timeout of 10 seconds and a child
that ignores SIGTERM but dies on SIGKILL, the grace interval after each signal
is the full `timeout` value 10, not a fixed 1 second: the source passes
`timeout=timeout` to every `process.wait` call. -/
theorem grace_interval_not_one_second :
    process_handler 10 { exitsNaturally := false, natCode := 0,
                         diesAfterTerm := false, diesAfterKill := true } =
      Except.ok (-1, [(Sig.sigterm, 10), (Sig.sigkill, 10)]) ∧ (10 : Nat) ≠ 1 :=
  ⟨rfl, by decide⟩

/-- C3 (amended): on timeout the handler sends SIGTERM to the whole process
group and waits up to the configured `timeout` (not a fixed 1 second); if the
process is still alive it sends SIGKILL to the whole group and waits up to
`timeout` again; if the process is still alive after that, an unrecoverable
error is raised rather than silently swallowed. -/
theorem process_handler_escalation (timeout : Nat) (p : ChildProc)
    (h : p.exitsNaturally = false) :
    (p.diesAfterTerm = true →
      process_handler timeout p = Except.ok (-1, [(Sig.sigterm, timeout)])) ∧
    (p.diesAfterTerm = false → p.diesAfterKill = true →
      process_handler timeout p =
        Except.ok (-1, [(Sig.sigterm, timeout), (Sig.sigkill, timeout)])) ∧
    (p.diesAfterTerm = false → p.diesAfterKill = false →
      process_handler timeout p =
        Except.error "Test executable could not be terminated.") := by
  refine ⟨?_, ?_, ?_⟩ <;> intros <;> simp [process_handler, h, *]

/-- Witness for C3 at a concrete input: timeout 10, a child that exits neither
naturally nor within the SIGTERM grace wait but dies on SIGKILL. -/
theorem process_handler_escalation_witness :
    process_handler 10 { exitsNaturally := false, natCode := 0,
                         diesAfterTerm := false, diesAfterKill := true } =
      Except.ok (-1, [(Sig.sigterm, 10), (Sig.sigkill, 10)]) :=
  (process_handler_escalation 10
    { exitsNaturally := false, natCode := 0,
      diesAfterTerm := false, diesAfterKill := true } rfl).2.1 rfl rfl

/-- C4 (code evaluation at the failing input): when the primary `amplc` run
fails (timed out, `primaryOk = false`) while the `exec-class` flag is set,
`CodegenTest.execute` returns `True` — the case is reported as executed
successfully — and the secondary stage is not invoked; the claim says the
timeout must be recorded as an execution failure. -/
theorem codegen_primary_timeout_reported_as_success :
    codegen_execute false true 0 = (true, false) := rfl

/-- C5: the diff stage checks every configured stream with no short-circuit —
the set of streams for which a `diff` process ran equals the whole configured
list, the reported mismatches are exactly the mismatching streams (also those
after an earlier mismatch), and the stage passes iff every configured stream
matched. -/
theorem diff_checks_all_streams (diffFiles : List String)
    (diffExit : String → Int) :
    (diff diffFiles diffExit).checked = diffFiles ∧
    (diff diffFiles diffExit).reported =
      diffFiles.filter (fun ot => !(diffExit ot == 0)) ∧
    ((diff diffFiles diffExit).passed = true ↔ ∀ ot ∈ diffFiles, diffExit ot = 0) := by
  unfold diff
  rw [diff_foldl_spec]
  refine ⟨by simp, by simp, ?_⟩
  simp [List.all_eq_true]

/-- The three per-case stages that the loop body of `BaseTest.test`
(src/test.py:332-349) can invoke. -/
inductive Stage where
  | execute
  | diff
  | memCheck
deriving DecidableEq

/-- The sequence of stages the loop body of `BaseTest.test`
(src/test.py:334-349) runs for one test case: `self.execute` always; on
execute failure the body appends the case to `failed` and `continue`s,
skipping everything else; otherwise `self.diff` runs next and then, exactly
when the `memory-check` flag is set, `self.mem_check`. -/
def caseStages (memFlag : Bool) (execOk : Bool) : List Stage :=
  if !execOk then [Stage.execute]
  else [Stage.execute, Stage.diff] ++ (if memFlag then [Stage.memCheck] else [])

/-- Whether `BaseTest.test` marks case `t` as failed, given oracles for the
three stages: `execOk t` is the boolean of `self.execute(t)`, `diffOk t` of
`self.diff(t)`, `memOk t` of `self.mem_check(t)`. -/
def caseFails (memFlag : Bool) (execOk diffOk memOk : Nat → Bool) (t : Nat) :
    Bool :=
  !execOk t || !diffOk t || (memFlag && !memOk t)

/-- The `failed` list accumulated by the loop of `BaseTest.test`
(src/test.py:333-349): an execute failure appends the case and `continue`s; a
diff failure appends it; a memory-check failure (checked only when the
`memory-check` flag is set) appends it unless it is already in the list
(`failed.append(test) if test not in failed else None`). -/
def run_tests (memFlag : Bool) (execOk diffOk memOk : Nat → Bool) :
    List Nat → List Nat → List Nat
  | failed, [] => failed
  | failed, t :: rest =>
    if !execOk t then run_tests memFlag execOk diffOk memOk (failed ++ [t]) rest
    else
      let failed1 := if !diffOk t then failed ++ [t] else failed
      let failed2 :=
        if memFlag && !memOk t then
          if t ∈ failed1 then failed1 else failed1 ++ [t]
        else failed1
      run_tests memFlag execOk diffOk memOk failed2 rest

/-- Outcome of a whole `BaseTest.test` run (src/test.py:322-359): an early
return when `make` fails, the uncaught `ZeroDivisionError` raised by the pass
percentage computation when the case list is empty, or the reported pass
percentage together with the final `failed` list. -/
inductive SuiteOutcome where
  | buildFailed
  | zeroDivisionError (failed : List Nat)
  | report (perc : ℚ) (failed : List Nat)
deriving DecidableEq

/-- Shallow embedding of `BaseTest.test` (src/test.py:322-359): on build
failure the method returns before running any case; otherwise the loop runs
over all of `names` and afterwards the percentage
`(1 - (len(failed) / len(self._test_names))) * 100` is computed, which raises
`ZeroDivisionError` when `names` is empty.  The second component is the list
of cases whose execution was attempted. -/
def test_suite (makeOk memFlag : Bool) (execOk diffOk memOk : Nat → Bool)
    (names : List Nat) : SuiteOutcome × List Nat :=
  if !makeOk then (SuiteOutcome.buildFailed, [])
  else
    let failed := run_tests memFlag execOk diffOk memOk [] names
    if names.length = 0 then (SuiteOutcome.zeroDivisionError failed, names)
    else
      (SuiteOutcome.report
        ((1 - (failed.length : ℚ) / (names.length : ℚ)) * 100) failed, names)

/-- C2 (counterexample): when execute fails for a case (e.g. it times out),
the loop body of `BaseTest.test` runs no further stage at all — in particular
the diff stage does not run, contrary to the claim that it still runs
opportunistically. -/
theorem no_diff_after_execute_failure :
    caseStages true false = [Stage.execute] ∧
    Stage.diff ∉ caseStages true false := by
  exact ⟨rfl, by decide⟩

/-- C2 (amended): the per-unit stages run in the order execute, then diff,
then memory-check (memory-check only if execute succeeded and the flag is
set); when execute fails the case is marked failed and all later stages,
including diff, are skipped. -/
theorem stage_order (memFlag execOk : Bool) :
    (execOk = false → caseStages memFlag execOk = [Stage.execute]) ∧
    (execOk = true → memFlag = true →
      caseStages memFlag execOk = [Stage.execute, Stage.diff, Stage.memCheck]) ∧
    (execOk = true → memFlag = false →
      caseStages memFlag execOk = [Stage.execute, Stage.diff]) := by
  cases memFlag <;> cases execOk <;> refine ⟨?_, ?_, ?_⟩ <;> intros <;>
    simp_all [caseStages]

/-- Witness for C2 at a concrete input: execute succeeded and the
memory-check flag is set. -/
theorem stage_order_witness :
    caseStages true true = [Stage.execute, Stage.diff, Stage.memCheck] :=
  (stage_order true true).2.1 rfl rfl

/-- C7: when the build step fails, `BaseTest.test` returns at once — zero
cases are executed, the outcome is a `buildFailed` value distinct from every
pass-percentage report. -/
theorem build_failure_aborts_suite (memFlag : Bool)
    (execOk diffOk memOk : Nat → Bool) (names : List Nat) :
    test_suite false memFlag execOk diffOk memOk names =
      (SuiteOutcome.buildFailed, []) ∧
    (∀ perc failed, SuiteOutcome.buildFailed ≠ SuiteOutcome.report perc failed) :=
  ⟨rfl, fun _ _ h => SuiteOutcome.noConfusion h⟩

/-- C10: when the build succeeds but the case list is empty, `BaseTest.test`
raises an uncaught `ZeroDivisionError` in the pass-percentage computation
(`len(failed) / len(self._test_names)` with denominator 0) instead of
reporting an empty suite. -/
theorem empty_case_list_division_by_zero (memFlag : Bool)
    (execOk diffOk memOk : Nat → Bool) :
    test_suite true memFlag execOk diffOk memOk [] =
      (SuiteOutcome.zeroDivisionError [], []) ∧
    (∀ perc failed,
      SuiteOutcome.zeroDivisionError [] ≠ SuiteOutcome.report perc failed) :=
  ⟨rfl, fun _ _ h => SuiteOutcome.noConfusion h⟩

theorem run_tests_eq_filter (memFlag : Bool) (execOk diffOk memOk : Nat → Bool)
    (names : List Nat) :
    ∀ failed : List Nat, names.Nodup → (∀ t ∈ names, t ∉ failed) →
      run_tests memFlag execOk diffOk memOk failed names =
        failed ++ names.filter (caseFails memFlag execOk diffOk memOk) := by
  induction names with
  | nil => intro failed _ _; simp [run_tests]
  | cons t rest ih =>
    intro failed hnd hdisj
    have htr : t ∉ rest := (List.nodup_cons.mp hnd).1
    have hrest : rest.Nodup := (List.nodup_cons.mp hnd).2
    have htf : t ∉ failed := hdisj t (List.mem_cons_self t rest)
    have hdisj1 : ∀ s ∈ rest, s ∉ failed ++ [t] := by
      intro s hs
      simp only [List.mem_append, List.mem_singleton]
      rintro (h | rfl)
      · exact hdisj s (List.mem_cons_of_mem t hs) h
      · exact htr hs
    have hdisj0 : ∀ s ∈ rest, s ∉ failed := fun s hs =>
      hdisj s (List.mem_cons_of_mem t hs)
    by_cases he : execOk t
    · by_cases hd : diffOk t
      · by_cases hm : memFlag && !memOk t
        · have hstep : run_tests memFlag execOk diffOk memOk failed (t :: rest) =
              run_tests memFlag execOk diffOk memOk (failed ++ [t]) rest := by
            simp [run_tests, he, hd, hm, htf]
          rw [hstep, ih (failed ++ [t]) hrest hdisj1]
          simp [List.filter_cons, caseFails, he, hd, hm, List.append_assoc]
        · have hstep : run_tests memFlag execOk diffOk memOk failed (t :: rest) =
              run_tests memFlag execOk diffOk memOk failed rest := by
            simp [run_tests, he, hd, hm]
          rw [hstep, ih failed hrest hdisj0]
          simp [List.filter_cons, caseFails, he, hd, hm]
      · have hstep : run_tests memFlag execOk diffOk memOk failed (t :: rest) =
              run_tests memFlag execOk diffOk memOk (failed ++ [t]) rest := by
          simp [run_tests, he, hd]
        rw [hstep, ih (failed ++ [t]) hrest hdisj1]
        simp [List.filter_cons, caseFails, he, hd, List.append_assoc]
    · have hstep : run_tests memFlag execOk diffOk memOk failed (t :: rest) =
          run_tests memFlag execOk diffOk memOk (failed ++ [t]) rest := by
        simp [run_tests, he]
      rw [hstep, ih (failed ++ [t]) hrest hdisj1]
      simp [List.filter_cons, caseFails, he, List.append_assoc]

/-- C8: for a suite run over a nonempty, duplicate-free case list, the
reported pass percentage is `(1 - failures / total) * 100` where `total` is
the number of cases run and `failures` is the number of distinct cases with at
least one failing stage (each failed case counted once even when several of
its stages failed). -/
theorem pass_percentage_formula (memFlag : Bool)
    (execOk diffOk memOk : Nat → Bool) (names : List Nat)
    (hnd : names.Nodup) (hne : names ≠ []) :
    (test_suite true memFlag execOk diffOk memOk names).1 =
      SuiteOutcome.report
        ((1 -
            ((names.filter (caseFails memFlag execOk diffOk memOk)).length : ℚ) /
              (names.length : ℚ)) * 100)
        (names.filter (caseFails memFlag execOk diffOk memOk)) := by
  have h := run_tests_eq_filter memFlag execOk diffOk memOk names [] hnd
    (by simp)
  have hlen : ¬ names.length = 0 := by
    simpa [List.length_eq_zero] using hne
  simp [test_suite, h, hlen]

/-- Witness for C8 at a concrete input: three cases where case 1 fails
execute, case 2 fails diff and case 3 passes everything; two distinct failed
cases out of three. -/
theorem pass_percentage_formula_witness :
    (test_suite true true (fun t => decide (t ≠ 1)) (fun t => decide (t ≠ 2))
        (fun _ => true) [1, 2, 3]).1 =
      SuiteOutcome.report
        ((1 -
            (([1, 2, 3].filter
                (caseFails true (fun t => decide (t ≠ 1))
                  (fun t => decide (t ≠ 2)) (fun _ => true))).length : ℚ) /
              (([1, 2, 3] : List Nat).length : ℚ)) * 100)
        ([1, 2, 3].filter
          (caseFails true (fun t => decide (t ≠ 1)) (fun t => decide (t ≠ 2))
            (fun _ => true))) :=
  pass_percentage_formula true (fun t => decide (t ≠ 1))
    (fun t => decide (t ≠ 2)) (fun _ => true) [1, 2, 3] (by decide) (by decide)

/-- Model of the Python builtin `range(a, b)` as a list of integers:
`[a, a+1, ..., b-1]`, empty when `b ≤ a`. -/
def pyRange (a b : Int) : List Int :=
  (List.range (b - a).toNat).map (fun (i : Nat) => a + (i : Int))

/-- Shallow embedding of the `".."` branch of `parse_args`
(src/test.py:632-640): after `start, end = map(int, test_args[0].split(".."))`
the case list is `list(range(start, end + 1))`. -/
def parse_range (a b : Int) : List Int := pyRange a (b + 1)

/-- C9: for a case-range argument `"a..b"` with `a ≤ b`, the derived case list
is exactly the inclusive integer range: an element is in the list iff it lies
in `[a, b]`, the list is strictly increasing, and it has `b - a + 1`
elements. -/
theorem case_range_inclusive (a b : Int) (h : a ≤ b) :
    (∀ x : Int, x ∈ parse_range a b ↔ a ≤ x ∧ x ≤ b) ∧
    List.Chain' (fun x y : Int => x < y) (parse_range a b) ∧
    (parse_range a b).length = (b - a + 1).toNat := by
  refine ⟨?_, ?_, ?_⟩
  · intro x
    rw [parse_range, pyRange]
    constructor
    · intro hx
      obtain ⟨i, hi, rfl⟩ := List.mem_map.mp hx
      rw [List.mem_range] at hi
      omega
    · rintro ⟨h1, h2⟩
      refine List.mem_map.mpr ⟨(x - a).toNat, List.mem_range.mpr (by omega), by omega⟩
  · have hp : List.Pairwise (fun x y : Int => x < y) (parse_range a b) := by
      rw [parse_range, pyRange]
      refine List.Pairwise.map _ (fun i j hij => ?_) (List.pairwise_lt_range _)
      omega
    exact hp.chain'
  · rw [parse_range, pyRange, List.length_map, List.length_range]
    omega

/-- Witness for C9 at the concrete range of the claim: `"3..7"` yields exactly
`[3, 4, 5, 6, 7]`. -/
theorem case_range_inclusive_witness :
    parse_range 3 7 = [3, 4, 5, 6, 7] ∧
    ((5 : Int) ∈ parse_range 3 7 ↔ (3 : Int) ≤ 5 ∧ (5 : Int) ≤ 7) ∧
    List.Chain' (fun x y : Int => x < y) (parse_range 3 7) :=
  ⟨by decide, (case_range_inclusive 3 7 (by decide)).1 5,
    (case_range_inclusive 3 7 (by decide)).2.1⟩

/-- The characters of the literal `"class"` in the discovery filter of
`test_runner` (src/test.py:586-587). -/
def classChars : List Char := ['c', 'l', 'a', 's', 's']

/-- The characters of the suffix `".in"` in the discovery filter. -/
def inSuffix : List Char := ['.', 'i', 'n']

/-- The Python expression `f.split('.')[0]`: the longest prefix of `f` before
the first `'.'`. -/
def first_field (f : List Char) : List Char := f.takeWhile (fun c => c != '.')

/-- The Python builtin `int` applied to a string of characters: `none` models
the `ValueError` raised on anything that is not a nonempty string of decimal
digits. -/
def pyInt (cs : List Char) : Option Nat :=
  if cs ≠ [] ∧ cs.all Char.isDigit then
    some (cs.foldl (fun a c => a * 10 + (c.toNat - '0'.toNat)) 0)
  else none

/-- The file-name filter of the case-discovery branch of `test_runner`
(src/test.py:586-588): `f.endswith('.in') and "class" not in f`. -/
def discovery_filter (f : List Char) : Bool :=
  decide (inSuffix <:+ f) && !(decide (classChars <:+: f))

/-- `list(map(lambda f: int(f.split('.')[0]), in_files))` of `test_runner`
(src/test.py:589): parse the leading integer of every filtered name, failing
(`none`) if any parse raises. -/
def parse_all : List (List Char) → Option (List Nat)
  | [] => some []
  | f :: fs =>
    match pyInt (first_field f), parse_all fs with
    | some n, some ns => some (n :: ns)
    | _, _ => none

/-- Shallow embedding of the case-discovery branch of `test_runner`
(src/test.py:584-590): filter the directory listing down to names ending in
`.in` and not containing `"class"`, parse the leading integer of each, and
sort ascending (`test_cases.sort()`; on naturals with the total order `≤`
every comparison sort returns the same list, so `insertionSort` models the
Python sort exactly). -/
def discover_cases (files : List (List Char)) : Option (List Nat) :=
  (parse_all (files.filter discovery_filter)).map
    (fun l => List.insertionSort (fun a b => a ≤ b) l)

/-- Modelled from the spec words, for comparison with `discover_cases`: the
integer identifier of a plain `.in` fixture file — a name of the exact form
`"{n}.in"`, hence with no `.class` component — and `none` for every other
name. -/
def specCaseId (f : List Char) : Option Nat :=
  let ds := first_field f
  if ds ≠ [] ∧ ds.all Char.isDigit ∧ f = ds ++ inSuffix then
    some (ds.foldl (fun a c => a * 10 + (c.toNat - '0'.toNat)) 0)
  else none

/-- `f` is a canonical primary fixture input of the form `"{n}.in"`. -/
def isCaseFile (f : List Char) : Bool :=
  let ds := first_field f
  !ds.isEmpty && ds.all Char.isDigit && f == ds ++ inSuffix

/-- `f` is a canonical secondary-stage fixture input of the form
`"{n}.class.in"`. -/
def isClassCaseFile (f : List Char) : Bool :=
  let ds := first_field f
  !ds.isEmpty && ds.all Char.isDigit && f == (ds ++ '.' :: classChars) ++ inSuffix

/-- The characters of the golden-file suffix `".out"`. -/
def outSuffix : List Char := ['.', 'o', 'u', 't']

/-- The characters of the golden-file suffix `".err"`. -/
def errSuffix : List Char := ['.', 'e', 'r', 'r']

/-- `f` is a canonical primary golden file of the form `"{n}.out"` or
`"{n}.err"`. -/
def isGoldenFile (f : List Char) : Bool :=
  let ds := first_field f
  !ds.isEmpty && ds.all Char.isDigit &&
    (f == ds ++ outSuffix || f == ds ++ errSuffix)

/-- `f` is a canonical secondary-stage golden file of the form
`"{n}.class.out"` or `"{n}.class.err"`. -/
def isClassGoldenFile (f : List Char) : Bool :=
  let ds := first_field f
  !ds.isEmpty && ds.all Char.isDigit &&
    (f == (ds ++ '.' :: classChars) ++ outSuffix ||
      f == (ds ++ '.' :: classChars) ++ errSuffix)

theorem caseFile_facts (f : List Char) (hf : isCaseFile f = true) :
    discovery_filter f = true ∧
    pyInt (first_field f) =
      some ((first_field f).foldl (fun a c => a * 10 + (c.toNat - '0'.toNat)) 0) ∧
    specCaseId f =
      some ((first_field f).foldl (fun a c => a * 10 + (c.toNat - '0'.toNat)) 0) := by
  simp only [isCaseFile, Bool.and_eq_true, Bool.not_eq_true', beq_iff_eq] at hf
  obtain ⟨⟨hempty, hdig⟩, heq⟩ := hf
  have hne : first_field f ≠ [] := by
    intro h0
    rw [h0] at hempty
    simp at hempty
  refine ⟨?_, ?_, ?_⟩
  · unfold discovery_filter
    have h1 : inSuffix <:+ f := heq ▸ List.suffix_append _ _
    have h2 : ¬ classChars <:+: f := by
      intro hinf
      have hc : 'c' ∈ f := hinf.subset (by decide)
      rw [heq] at hc
      rcases List.mem_append.mp hc with hc | hc
      · exact absurd (List.all_eq_true.mp hdig _ hc) (by decide)
      · exact absurd hc (by decide)
    simp [h1, h2]
  · simp [pyInt, hne, hdig]
  · have hcond : first_field f ≠ [] ∧ (first_field f).all Char.isDigit = true ∧
        f = first_field f ++ inSuffix := ⟨hne, hdig, heq⟩
    simp only [specCaseId]
    rw [if_pos hcond]

theorem classFile_facts (f : List Char) (hf : isClassCaseFile f = true) :
    discovery_filter f = false ∧ specCaseId f = none := by
  simp only [isClassCaseFile, Bool.and_eq_true, Bool.not_eq_true', beq_iff_eq] at hf
  obtain ⟨⟨hempty, hdig⟩, heq⟩ := hf
  refine ⟨?_, ?_⟩
  · unfold discovery_filter
    have hshape : (first_field f ++ ['.']) ++ classChars ++ inSuffix =
        (first_field f ++ '.' :: classChars) ++ inSuffix := by
      simp only [List.append_assoc, List.singleton_append, List.cons_append,
        List.nil_append]
    have h2 : classChars <:+: f :=
      ⟨first_field f ++ ['.'], inSuffix, hshape.trans heq.symm⟩
    simp [h2]
  · have hneq : ¬ f = first_field f ++ inSuffix := by
      intro hcontra
      have h12 : (first_field f ++ '.' :: classChars) ++ inSuffix =
          first_field f ++ inSuffix := heq.symm.trans hcontra
      rw [List.append_assoc] at h12
      have := List.append_cancel_left h12
      exact absurd this (by decide)
    simp [specCaseId, hneq]

theorem goldenFile_facts (f : List Char) (hf : isGoldenFile f = true) :
    discovery_filter f = false ∧ specCaseId f = none := by
  simp only [isGoldenFile, Bool.and_eq_true, Bool.or_eq_true, Bool.not_eq_true',
    beq_iff_eq] at hf
  obtain ⟨⟨hempty, hdig⟩, hor⟩ := hf
  constructor
  · have hnsuf : ¬ inSuffix <:+ f := by
      intro hsuf
      have hn : 'n' ∈ f := hsuf.subset (by decide)
      rcases hor with heq | heq
      · rw [heq] at hn
        rcases List.mem_append.mp hn with hn | hn
        · exact absurd (List.all_eq_true.mp hdig _ hn) (by decide)
        · exact absurd hn (by decide)
      · rw [heq] at hn
        rcases List.mem_append.mp hn with hn | hn
        · exact absurd (List.all_eq_true.mp hdig _ hn) (by decide)
        · exact absurd hn (by decide)
    simp [discovery_filter, hnsuf]
  · have hneq : ¬ f = first_field f ++ inSuffix := by
      intro hcontra
      rcases hor with heq | heq
      · exact absurd (List.append_cancel_left (heq.symm.trans hcontra)) (by decide)
      · exact absurd (List.append_cancel_left (heq.symm.trans hcontra)) (by decide)
    simp [specCaseId, hneq]

theorem classGoldenFile_facts (f : List Char) (hf : isClassGoldenFile f = true) :
    discovery_filter f = false ∧ specCaseId f = none := by
  simp only [isClassGoldenFile, Bool.and_eq_true, Bool.or_eq_true,
    Bool.not_eq_true', beq_iff_eq] at hf
  obtain ⟨⟨hempty, hdig⟩, hor⟩ := hf
  have hshape : ∀ s : List Char,
      (first_field f ++ ['.']) ++ classChars ++ s =
        (first_field f ++ '.' :: classChars) ++ s := by
    intro s
    simp only [List.append_assoc, List.singleton_append, List.cons_append,
      List.nil_append]
  constructor
  · have h2 : classChars <:+: f := by
      rcases hor with heq | heq
      · exact ⟨first_field f ++ ['.'], outSuffix, (hshape outSuffix).trans heq.symm⟩
      · exact ⟨first_field f ++ ['.'], errSuffix, (hshape errSuffix).trans heq.symm⟩
    simp [discovery_filter, h2]
  · have hneq : ¬ f = first_field f ++ inSuffix := by
      intro hcontra
      rcases hor with heq | heq
      · have h12 := heq.symm.trans hcontra
        rw [List.append_assoc] at h12
        exact absurd (List.append_cancel_left h12) (by decide)
      · have h12 := heq.symm.trans hcontra
        rw [List.append_assoc] at h12
        exact absurd (List.append_cancel_left h12) (by decide)
    simp [specCaseId, hneq]

theorem parse_all_canonical (files : List (List Char))
    (h : ∀ f ∈ files, isCaseFile f = true ∨ isClassCaseFile f = true ∨
      isGoldenFile f = true ∨ isClassGoldenFile f = true) :
    parse_all (files.filter discovery_filter) =
      some (files.filterMap specCaseId) := by
  induction files with
  | nil => rfl
  | cons f fs ih =>
    have hfs : ∀ g ∈ fs, isCaseFile g = true ∨ isClassCaseFile g = true ∨
        isGoldenFile g = true ∨ isClassGoldenFile g = true :=
      fun g hg => h g (List.mem_cons_of_mem f hg)
    rcases h f (List.mem_cons_self f fs) with hf | hf | hf | hf
    · obtain ⟨h1, h2, h3⟩ := caseFile_facts f hf
      simp [List.filter_cons, h1, parse_all, h2, ih hfs, List.filterMap_cons, h3]
    · obtain ⟨h1, h2⟩ := classFile_facts f hf
      simp [List.filter_cons, h1, ih hfs, List.filterMap_cons, h2]
    · obtain ⟨h1, h2⟩ := goldenFile_facts f hf
      simp [List.filter_cons, h1, ih hfs, List.filterMap_cons, h2]
    · obtain ⟨h1, h2⟩ := classGoldenFile_facts f hf
      simp [List.filter_cons, h1, ih hfs, List.filterMap_cons, h2]

/-- C6: over a fixture directory laid out per the on-disk convention — any
mix of inputs `"{n}.in"`, golden files `"{n}.out"` and `"{n}.err"`, and
secondary-stage files `"{n}.class.in"`, `"{n}.class.out"` and
`"{n}.class.err"` — the discovered case list of `test_runner` equals the
ascending-sorted list of the integer identifiers of the plain `.in` files:
golden files and every file with a `.class` component are excluded; and every
discovered list is sorted ascending. -/
theorem discovery_matches_spec (files : List (List Char))
    (h : ∀ f ∈ files, isCaseFile f = true ∨ isClassCaseFile f = true ∨
      isGoldenFile f = true ∨ isClassGoldenFile f = true) :
    discover_cases files =
      some (List.insertionSort (fun a b => a ≤ b) (files.filterMap specCaseId)) ∧
    ∀ l, discover_cases files = some l → l.Pairwise (fun a b : Nat => a ≤ b) := by
  have hp := parse_all_canonical files h
  constructor
  · simp [discover_cases, hp]
  · intro l hl
    rw [discover_cases, hp] at hl
    have hl2 : List.insertionSort (fun a b => a ≤ b) (files.filterMap specCaseId) = l := by
      simpa using hl
    rw [← hl2]
    exact List.sorted_insertionSort (fun a b => a ≤ b) _

/-- Witness for C6 at a concrete, fully conforming directory listing: case 10
with its golden files, and two-stage case 2 with inputs and golden files for
both stages; discovery yields the sorted case list `[2, 10]`, with the golden
and `.class` files excluded. -/
theorem discovery_matches_spec_witness :
    discover_cases
        [['1', '0', '.', 'i', 'n'],
         ['1', '0', '.', 'o', 'u', 't'],
         ['1', '0', '.', 'e', 'r', 'r'],
         ['2', '.', 'c', 'l', 'a', 's', 's', '.', 'i', 'n'],
         ['2', '.', 'c', 'l', 'a', 's', 's', '.', 'o', 'u', 't'],
         ['2', '.', 'c', 'l', 'a', 's', 's', '.', 'e', 'r', 'r'],
         ['2', '.', 'i', 'n'],
         ['2', '.', 'o', 'u', 't'],
         ['2', '.', 'e', 'r', 'r']] =
      some (List.insertionSort (fun a b => a ≤ b)
        (List.filterMap specCaseId
          [['1', '0', '.', 'i', 'n'],
           ['1', '0', '.', 'o', 'u', 't'],
           ['1', '0', '.', 'e', 'r', 'r'],
           ['2', '.', 'c', 'l', 'a', 's', 's', '.', 'i', 'n'],
           ['2', '.', 'c', 'l', 'a', 's', 's', '.', 'o', 'u', 't'],
           ['2', '.', 'c', 'l', 'a', 's', 's', '.', 'e', 'r', 'r'],
           ['2', '.', 'i', 'n'],
           ['2', '.', 'o', 'u', 't'],
           ['2', '.', 'e', 'r', 'r']])) ∧
    discover_cases
        [['1', '0', '.', 'i', 'n'],
         ['1', '0', '.', 'o', 'u', 't'],
         ['1', '0', '.', 'e', 'r', 'r'],
         ['2', '.', 'c', 'l', 'a', 's', 's', '.', 'i', 'n'],
         ['2', '.', 'c', 'l', 'a', 's', 's', '.', 'o', 'u', 't'],
         ['2', '.', 'c', 'l', 'a', 's', 's', '.', 'e', 'r', 'r'],
         ['2', '.', 'i', 'n'],
         ['2', '.', 'o', 'u', 't'],
         ['2', '.', 'e', 'r', 'r']] =
      some [2, 10] :=
  ⟨(discovery_matches_spec
      [['1', '0', '.', 'i', 'n'],
       ['1', '0', '.', 'o', 'u', 't'],
       ['1', '0', '.', 'e', 'r', 'r'],
       ['2', '.', 'c', 'l', 'a', 's', 's', '.', 'i', 'n'],
       ['2', '.', 'c', 'l', 'a', 's', 's', '.', 'o', 'u', 't'],
       ['2', '.', 'c', 'l', 'a', 's', 's', '.', 'e', 'r', 'r'],
       ['2', '.', 'i', 'n'],
       ['2', '.', 'o', 'u', 't'],
       ['2', '.', 'e', 'r', 'r']] (by decide)).1, by decide⟩

end AmplTest
